import Mathlib

/-!
Verification development for the `mcp-client-chatbot` repository.

Part I embeds the workflow execution engine described by the design
specification (graph model, condition evaluator, scheduler/runner,
execution trace).  The engine implementation itself is not part of the
source snapshot, so every definition in Part I is modelled from the
specification text, as indicated in its doc comment.

Part II embeds the functions that are present in the source snapshot:
`customModelProvider.getModel` (src/src/lib/ai/models.ts),
`listStarredEmails` (src/mcp-server/tools/readGmail.js) and
`handleChat` (src/unnamed/part_001).
-/

/-- First-found lookup in an association list keyed by strings, the model of
object-property access used throughout the embedding. -/
def lookupStr {α : Type} (l : List (String × α)) (k : String) : Option α :=
  match l with
  | [] => none
  | (k', v) :: t => if k' = k then some v else lookupStr t k

/-- Substring test on character lists (needle anywhere in the haystack),
the model of JavaScript's `String.prototype.includes`. -/
def charsContain (hay pat : List Char) : Bool :=
  match hay with
  | [] => pat.isEmpty
  | _ :: t => pat.isPrefixOf hay || charsContain t pat

/-- Substring test on strings. -/
def strContains (hay pat : String) : Bool :=
  charsContain hay.toList pat.toList

/-- ASCII lowercase of one character, the model of
`String.prototype.toLowerCase` on the ASCII range. -/
def lowerChar (c : Char) : Char :=
  if c.toNat ≥ 65 && c.toNat ≤ 90 then Char.ofNat (c.toNat + 32) else c

/-- ASCII lowercase of a string. -/
def strToLower (s : String) : String :=
  String.mk (s.toList.map lowerChar)

namespace Workflow

/-- Modelled from the spec: opaque structured values flowing between nodes
(node outputs, resolved inputs, comparison values of condition clauses). -/
inductive Value where
  | num (n : Int)
  | str (s : String)
  | bool (b : Bool)
  | null
  deriving DecidableEq, Repr

/-- Modelled from the spec: the condition-clause operators
"equals, not-equals, contains, greater-than, less-than, is-empty". -/
inductive CondOp where
  | eq
  | ne
  | containsOp
  | gt
  | lt
  | isEmptyOp
  deriving DecidableEq, Repr

/-- Modelled from the spec: one `{field, operator, comparisonValue}` clause of
a Condition node's predicate expression. -/
structure Clause where
  field : String
  op : CondOp
  value : Value
  deriving DecidableEq, Repr

/-- String rendering of a value, used by the `contains` operator and by
template substitution. -/
def valueToString : Value → String
  | .num n => toString n
  | .str s => s
  | .bool b => toString b
  | .null => ""

/-- Modelled from the spec: apply one operator to a resolved field value and
the clause's comparison value. -/
def applyOp (op : CondOp) (v cmp : Value) : Bool :=
  match op with
  | .eq => v = cmp
  | .ne => v ≠ cmp
  | .containsOp => strContains (valueToString v) (valueToString cmp)
  | .gt =>
    match v, cmp with
    | .num a, .num b => b < a
    | _, _ => false
  | .lt =>
    match v, cmp with
    | .num a, .num b => a < b
    | _, _ => false
  | .isEmptyOp => valueToString v = ""

/-- Modelled from the spec: evaluate one clause against the resolved
run-state values; "a clause whose field reference cannot be resolved
evaluates to false (never throws)". -/
def evalClause (input : List (String × Value)) (c : Clause) : Bool :=
  match lookupStr input c.field with
  | none => false
  | some v => applyOp c.op v c.value

/-- Modelled from the spec: a branch satisfies its predicate when the
conjunctive list of clauses all evaluate to true. -/
def branchSatisfied (input : List (String × Value)) (clauses : List Clause) : Bool :=
  clauses.all (evalClause input)

/-- Modelled from the spec: branch selection of a Condition node.  Branches
(if-branch, else-if branches) are listed in declared order, each as a pair of
output-port id and clause list; the else-port is the final fallback.  The
first branch whose clauses are all true is selected; the else-branch always
matches. -/
def selectPort (branches : List (String × List Clause)) (elsePort : String)
    (input : List (String × Value)) : String :=
  match branches.find? (fun b => branchSatisfied input b.2) with
  | some b => b.1
  | none => elsePort

/-- Modelled from the spec: the closed tagged-variant node kinds
{Input, Output, LLM, Tool, Condition, Http, Template, Note}; the Condition
variant carries its branch configuration (ordered if/else-if branches with
their output ports, and the else port). -/
inductive NodeKind where
  | input
  | output
  | llm
  | tool
  | condition (branches : List (String × List Clause)) (elsePort : String)
  | http
  | template (tmpl : String)
  | note
  deriving DecidableEq, Repr

/-- Whether a kind is the Input variant. -/
def NodeKind.isInput : NodeKind → Bool
  | .input => true
  | _ => false

/-- Whether a kind is the Output variant. -/
def NodeKind.isOutput : NodeKind → Bool
  | .output => true
  | _ => false

/-- Whether a kind is the non-functional Note variant. -/
def NodeKind.isNote : NodeKind → Bool
  | .note => true
  | _ => false

/-- Whether a kind is the Condition variant. -/
def NodeKind.isCondition : NodeKind → Bool
  | .condition _ _ => true
  | _ => false

/-- Modelled from the spec: a node has a unique id and a kind-specific
configuration (display metadata is excluded from engine semantics). -/
structure Node where
  id : String
  kind : NodeKind
  deriving DecidableEq, Repr

/-- Modelled from the spec: a directed connection
(sourceNodeId, sourcePortId, targetNodeId, targetPortId). -/
structure Edge where
  source : String
  sourcePort : String
  target : String
  targetPort : String
  deriving DecidableEq, Repr

/-- Modelled from the spec: the full set of nodes and edges of one workflow
version, received as an immutable snapshot per run. -/
structure Graph where
  nodes : List Node
  edges : List Edge
  deriving DecidableEq, Repr

/-- Find a node by id. -/
def findNode (g : Graph) (id : String) : Option Node :=
  g.nodes.find? (fun n => n.id = id)

/-- Incoming edges of a node. -/
def incoming (g : Graph) (id : String) : List Edge :=
  g.edges.filter (fun e => e.target = id)

/-- The functional (non-Note) nodes of a graph. -/
def functionalNodes (g : Graph) : List Node :=
  g.nodes.filter (fun n => !n.kind.isNote)

/-- Check: exactly one Input node. -/
def exactlyOneInput (g : Graph) : Bool :=
  (g.nodes.filter (fun n => n.kind.isInput)).length = 1

/-- Check: at least one Output node. -/
def atLeastOneOutput (g : Graph) : Bool :=
  (g.nodes.filter (fun n => n.kind.isOutput)).length ≥ 1

/-- Check: every edge's endpoints exist among the graph's node ids. -/
def noDanglingEdges (g : Graph) : Bool :=
  g.edges.all (fun e => (findNode g e.source).isSome && (findNode g e.target).isSome)

/-- Check: every non-Input functional node has at least one incoming edge. -/
def allNonInputFed (g : Graph) : Bool :=
  (functionalNodes g).all (fun n => n.kind.isInput || !(incoming g n.id).isEmpty)

/-- The output ports a Condition node's configuration recognizes. -/
def recognizedPorts : NodeKind → Option (List String)
  | .condition branches elsePort => some (branches.map (·.1) ++ [elsePort])
  | _ => none

/-- Check: every edge leaving a Condition node uses a recognized branch port. -/
def conditionPortsOk (g : Graph) : Bool :=
  g.edges.all (fun e =>
    match findNode g e.source with
    | some n =>
      match recognizedPorts n.kind with
      | some ports => ports.contains e.sourcePort
      | none => true
    | none => true)

/-- One round of Kahn elimination: drop every remaining node all of whose
incoming edges (restricted to remaining functional nodes) come from already
eliminated nodes. -/
def kahnRound (g : Graph) (remaining : List Node) : List Node :=
  remaining.filter (fun n =>
    (incoming g n.id).any (fun e =>
      remaining.any (fun m => m.id = e.source && !m.kind.isNote)))

/-- Iterated Kahn elimination with fuel. -/
def kahnIter (g : Graph) : Nat → List Node → List Node
  | 0, remaining => remaining
  | fuel + 1, remaining => kahnIter g fuel (kahnRound g remaining)

/-- Check: the graph restricted to non-Note nodes is acyclic (Kahn
elimination reaches the empty set). -/
def functionalAcyclic (g : Graph) : Bool :=
  (kahnIter g g.nodes.length (functionalNodes g)).isEmpty

/-- Modelled from the spec: `validate(graph)` checks exactly-one-Input,
at-least-one-Output, acyclicity over functional nodes, that every edge's
endpoints exist, that every non-Input node has at least one incoming edge,
and that Condition nodes expose only the recognized branch ports; the
result enumerates every violation found (the empty list means the graph is
accepted). -/
def validate (g : Graph) : List String :=
  (if exactlyOneInput g then [] else ["expected exactly one Input node"]) ++
  (if atLeastOneOutput g then [] else ["expected at least one Output node"]) ++
  (if functionalAcyclic g then [] else ["cycle among functional nodes"]) ++
  (if noDanglingEdges g then [] else ["edge references a missing node"]) ++
  (if allNonInputFed g then [] else ["non-Input node without incoming edge"]) ++
  (if conditionPortsOk g then [] else ["unrecognized Condition branch port"])

/-- Modelled from the spec: per-node states of the Scheduler's state machine
Pending → Ready → Running → {Succeeded | Failed | Skipped}. -/
inductive NodeStatus where
  | pending
  | ready
  | running
  | succeeded
  | failed
  | skipped
  deriving DecidableEq, Repr

/-- Modelled from the spec: one Execution Trace event — a node state
transition stamped with a monotonic sequence number. -/
structure TraceEvent where
  seq : Nat
  node : String
  newStatus : NodeStatus
  deriving DecidableEq, Repr

/-- Modelled from the spec: the Run State owned by one execution of the
Scheduler — per-node status, recorded outputs and errors, the branch ports
selected by Condition nodes, the final Output-node result, the appended
trace, the first failing node id, and the cancellation flag. -/
structure RunState where
  status : List (String × NodeStatus)
  outputs : List (String × Value)
  errors : List (String × String)
  selected : List (String × String)
  result : Option (List (String × Value))
  trace : List TraceEvent
  nextSeq : Nat
  failed : Option String
  cancelled : Bool
  payload : Value
  deriving DecidableEq, Repr

/-- The status of a node in the run state (Pending when not yet recorded). -/
def getStatus (st : RunState) (id : String) : NodeStatus :=
  (lookupStr st.status id).getD .pending

/-- Record a new status for a node. -/
def setStatus (st : RunState) (id : String) (s : NodeStatus) : RunState :=
  { st with status := (id, s) :: st.status }

/-- Append one trace event for a node state transition, consuming the next
sequence number. -/
def appendEvent (st : RunState) (id : String) (s : NodeStatus) : RunState :=
  { st with
    trace := st.trace ++ [⟨st.nextSeq, id, s⟩]
    nextSeq := st.nextSeq + 1 }

/-- Record a status transition: update the status map and append exactly one
trace event. -/
def recordTransition (st : RunState) (id : String) (s : NodeStatus) : RunState :=
  appendEvent (setStatus st id s) id s

/-- Modelled from the spec: an edge leaving a Condition node's port is live
exactly when that port is the selected branch; edges leaving any other node
are always live. -/
def edgeLive (g : Graph) (st : RunState) (e : Edge) : Bool :=
  match findNode g e.source with
  | some n =>
    match n.kind with
    | .condition _ _ => lookupStr st.selected e.source = some e.sourcePort
    | _ => true
  | none => true

/-- An incoming edge resolved as Succeeded-and-live. -/
def liveSuccEdge (g : Graph) (st : RunState) (e : Edge) : Bool :=
  getStatus st e.source = .succeeded && edgeLive g st e

/-- An incoming edge that has resolved: its source is in a terminal
Succeeded or Skipped state (a Succeeded Condition source with a non-selected
port counts as a satisfied Skip). -/
def resolvedEdge (st : RunState) (e : Edge) : Bool :=
  getStatus st e.source = .skipped || getStatus st e.source = .succeeded

/-- Modelled from the spec: readiness. A node becomes Ready once ALL its
incoming edges have resolved and at least one of them resolved as
Succeeded-and-live; the Input node (no incoming edges) is ready from the
start; Note nodes are never admitted. -/
def readyToRun (g : Graph) (st : RunState) (n : Node) : Bool :=
  !n.kind.isNote &&
    ((n.kind.isInput && (incoming g n.id).isEmpty) ||
      ((incoming g n.id).all (resolvedEdge st) &&
        (incoming g n.id).any (liveSuccEdge g st)))

/-- Modelled from the spec: propagated pruning. A node all of whose incoming
edges resolved without any live Succeeded edge (every predecessor Skipped,
or feeding it only through pruned Condition ports) is itself Skipped. -/
def shouldSkip (g : Graph) (st : RunState) (n : Node) : Bool :=
  !n.kind.isNote && !n.kind.isInput &&
    !(incoming g n.id).isEmpty &&
    (incoming g n.id).all (resolvedEdge st) &&
    !(incoming g n.id).any (liveSuccEdge g st)

/-- Modelled from the spec: the resolved input values of a node, gathered
from the outputs of its live Succeeded predecessors, keyed by target port. -/
def resolveInputs (g : Graph) (st : RunState) (n : Node) : List (String × Value) :=
  (incoming g n.id).filterMap (fun e =>
    if liveSuccEdge g st e then
      (lookupStr st.outputs e.source).map (fun v => (e.targetPort, v))
    else none)

/-- Modelled from the spec: `{{fieldRef}}` template substitution over the
resolved inputs; unresolved placeholders substitute the empty string. -/
def renderChars (inputs : List (String × Value)) : Nat → List Char → List Char
  | 0, l => l
  | _ + 1, [] => []
  | fuel + 1, '{' :: '{' :: rest =>
    let name := rest.takeWhile (fun c => c ≠ '}')
    let rest' := rest.dropWhile (fun c => c ≠ '}')
    match rest' with
    | '}' :: '}' :: tail =>
      (valueToString ((lookupStr inputs (String.mk name)).getD .null)).toList ++
        renderChars inputs fuel tail
    | _ => '{' :: '{' :: renderChars inputs fuel rest
  | fuel + 1, c :: rest => c :: renderChars inputs fuel rest

/-- Template rendering on strings. -/
def renderTemplate (inputs : List (String × Value)) (tmpl : String) : String :=
  String.mk (renderChars inputs tmpl.toList.length tmpl.toList)

/-- Modelled from the spec: the Node Executors. Input returns the run's
initial payload verbatim; Template substitutes placeholders and never fails;
LLM, Tool and Http forward to the injected external capability `exec`,
which may fail. Output and Condition are handled by the Scheduler itself. -/
def execNode (exec : Node → List (String × Value) → Except String Value)
    (payload : Value) (n : Node) (inputs : List (String × Value)) :
    Except String Value :=
  match n.kind with
  | .input => .ok payload
  | .template tmpl => .ok (.str (renderTemplate inputs tmpl))
  | _ => exec n inputs

/-- Scheduler action: Pending → Ready. -/
def applyReady (st : RunState) (n : Node) : RunState :=
  recordTransition st n.id .ready

/-- Scheduler action: Pending → Skipped (propagated pruning). -/
def applySkip (st : RunState) (n : Node) : RunState :=
  recordTransition st n.id .skipped

/-- Scheduler action: Ready → Running (dispatch to a Node Executor). -/
def applyDispatch (st : RunState) (n : Node) : RunState :=
  recordTransition st n.id .running

/-- Scheduler action: Running → Succeeded or Failed. A Condition node
succeeds recording its selected branch port; an Output node succeeds
recording the gathered final result; other nodes run their executor,
recording the output on success, or the error — and the run-level failing
node id, if none is set yet — on failure. -/
def applyFinish (g : Graph) (exec : Node → List (String × Value) → Except String Value)
    (st : RunState) (n : Node) : RunState :=
  let inputs := resolveInputs g st n
  match n.kind with
  | .condition branches elsePort =>
    recordTransition
      { st with selected := (n.id, selectPort branches elsePort inputs) :: st.selected }
      n.id .succeeded
  | .output =>
    recordTransition { st with result := some inputs } n.id .succeeded
  | _ =>
    match execNode exec st.payload n inputs with
    | .ok v =>
      recordTransition { st with outputs := (n.id, v) :: st.outputs } n.id .succeeded
    | .error msg =>
      recordTransition
        { st with
          errors := (n.id, msg) :: st.errors
          failed := some (st.failed.getD n.id) }
        n.id .failed

/-- Scheduler action: the external cancellation signal is raised. -/
def applyCancel (st : RunState) : RunState :=
  { st with cancelled := true }

/-- Modelled from the spec: the Scheduler's small-step transition relation.
Ready admission requires the readiness rule; Skipped requires the pruning
rule; dispatch happens only while the run is neither cancelled nor failed;
an in-flight (Running) node may always finish — cancellation and run
failure never abort it; the cancellation signal may arrive at any moment. -/
inductive Step (g : Graph) (exec : Node → List (String × Value) → Except String Value) :
    RunState → RunState → Prop where
  | ready (st : RunState) (n : Node) :
      n ∈ g.nodes → getStatus st n.id = .pending → readyToRun g st n = true →
      Step g exec st (applyReady st n)
  | skip (st : RunState) (n : Node) :
      n ∈ g.nodes → getStatus st n.id = .pending → shouldSkip g st n = true →
      Step g exec st (applySkip st n)
  | dispatch (st : RunState) (n : Node) :
      n ∈ g.nodes → getStatus st n.id = .ready →
      st.cancelled = false → st.failed = none →
      Step g exec st (applyDispatch st n)
  | finish (st : RunState) (n : Node) :
      n ∈ g.nodes → getStatus st n.id = .running →
      Step g exec st (applyFinish g exec st n)
  | cancel (st : RunState) :
      Step g exec st (applyCancel st)

/-- Reachability through zero or more Scheduler steps. -/
def Reaches (g : Graph) (exec : Node → List (String × Value) → Except String Value)
    (s s' : RunState) : Prop :=
  Relation.ReflTransGen (Step g exec) s s'

/-- The initial run state for a graph and an initial payload: every node
Pending, empty trace, no failure, not cancelled. -/
def initState (payload : Value) : RunState :=
  { status := []
    outputs := []
    errors := []
    selected := []
    result := none
    trace := []
    nextSeq := 0
    failed := none
    cancelled := false
    payload := payload }

/-- Modelled from the spec: run-level outcome of a run state. -/
inductive RunStatus where
  | succeeded
  | failed
  | cancelled
  | inProgress
  deriving DecidableEq, Repr

/-- Modelled from the spec: the run fails when a live node failed, is
Cancelled when the signal was raised, and succeeds when the Output node
reached Succeeded. -/
def runStatus (g : Graph) (st : RunState) : RunStatus :=
  if st.failed.isSome then .failed
  else if st.cancelled then .cancelled
  else if (g.nodes.filter (fun n => n.kind.isOutput)).all
      (fun n => getStatus st n.id = .succeeded) &&
      !(g.nodes.filter (fun n => n.kind.isOutput)).isEmpty then .succeeded
  else .inProgress

/-- One deterministic Scheduler step: admit a Ready node first, then apply
pruning, then dispatch (unless cancelled or failed), then let an in-flight
node finish; `none` when the run is quiescent. -/
def pickStep (g : Graph) (exec : Node → List (String × Value) → Except String Value)
    (st : RunState) : Option RunState :=
  match g.nodes.find? (fun n => getStatus st n.id = .pending && readyToRun g st n) with
  | some n => some (applyReady st n)
  | none =>
    match g.nodes.find? (fun n => getStatus st n.id = .pending && shouldSkip g st n) with
    | some n => some (applySkip st n)
    | none =>
      match (if st.cancelled || st.failed.isSome then none
             else g.nodes.find? (fun n => getStatus st n.id = .ready)) with
      | some n => some (applyDispatch st n)
      | none =>
        match g.nodes.find? (fun n => getStatus st n.id = .running) with
        | some n => some (applyFinish g exec st n)
        | none => none

/-- Run the deterministic Scheduler to quiescence, with fuel. -/
def runLoop (g : Graph) (exec : Node → List (String × Value) → Except String Value) :
    Nat → RunState → RunState
  | 0, st => st
  | fuel + 1, st =>
    match pickStep g exec st with
    | some st' => runLoop g exec fuel st'
    | none => st

/-- A full deterministic run from the initial state. -/
def runWorkflow (g : Graph) (exec : Node → List (String × Value) → Except String Value)
    (payload : Value) (fuel : Nat) : RunState :=
  runLoop g exec fuel (initState payload)

/-- Scenario graph: Input → Condition (`x > 0`, if-port "t", else-port "f")
feeding two branches A→A2 and B that converge on join node J and then the
Output node.  Used to exercise join synchronization, branch pruning and
failure escalation. -/
def diamondG : Graph :=
  { nodes :=
      [ ⟨"i", .input⟩
      , ⟨"c", .condition [("t", [⟨"x", .gt, .num 0⟩])] "f"⟩
      , ⟨"A", .tool⟩
      , ⟨"A2", .tool⟩
      , ⟨"B", .tool⟩
      , ⟨"J", .tool⟩
      , ⟨"o", .output⟩ ]
    edges :=
      [ ⟨"i", "out", "c", "x"⟩
      , ⟨"c", "t", "A", "in"⟩
      , ⟨"A", "out", "A2", "in"⟩
      , ⟨"A2", "out", "J", "a"⟩
      , ⟨"c", "f", "B", "in"⟩
      , ⟨"B", "out", "J", "b"⟩
      , ⟨"J", "out", "o", "res"⟩ ] }

/-- A capability mock that returns the comma-joined list of input-port names
it received, so a node's output shows exactly which predecessors fed it. -/
def portsExec : Node → List (String × Value) → Except String Value :=
  fun _ inputs => .ok (.str (String.intercalate "," (inputs.map (·.1))))

/-- A capability mock that raises an error for node B and succeeds like
`portsExec` elsewhere. -/
def failBExec : Node → List (String × Value) → Except String Value :=
  fun n inputs =>
    if n.id = "B" then .error "boom"
    else .ok (.str (String.intercalate "," (inputs.map (·.1))))

/-- Scenario graph: a two-stage linear pipeline Input → s1 → s2 → Output,
used to exercise cancellation between stages. -/
def lineG : Graph :=
  { nodes := [⟨"i", .input⟩, ⟨"s1", .tool⟩, ⟨"s2", .tool⟩, ⟨"o", .output⟩]
    edges := [⟨"i", "out", "s1", "in"⟩, ⟨"s1", "out", "s2", "in"⟩, ⟨"s2", "out", "o", "in"⟩] }

/-- A capability mock that returns each node's own id. -/
def idExec : Node → List (String × Value) → Except String Value :=
  fun n _ => .ok (.str n.id)

/-- The final state of the deterministic run of `diamondG` on payload 0
(the else-branch through B is live, the A branch is pruned). -/
def diamondFinal : RunState := runWorkflow diamondG portsExec (.num 0) 40

/-- The final state of the deterministic run of `diamondG` on payload 0
with the capability that fails on node B. -/
def diamondFailFinal : RunState := runWorkflow diamondG failBExec (.num 0) 40

/-- The deterministic run of `lineG` paused right after stage-1 dispatch:
s1 is Running, s2 still Pending. -/
def cancelMid : RunState := runLoop lineG idExec 5 (initState (.num 1))

/-- The deterministic run of `lineG` resumed to quiescence after the
cancellation signal was raised at `cancelMid`. -/
def cancelFinal : RunState := runLoop lineG idExec 40 (applyCancel cancelMid)

/-- A mid-run state of `lineG` where the Input node has succeeded and s1 is
still Pending, used to exhibit a Ready admission step. -/
def wReadyState : RunState :=
  { initState (.num 1) with status := [("i", .succeeded)], outputs := [("i", .num 1)] }

/-- A mid-run state of `lineG` where the Input node is Skipped and s1 is
still Pending, used to exhibit propagated pruning. -/
def wSkipState : RunState :=
  { initState (.num 1) with status := [("i", .skipped)] }

/-- A mid-run state of `diamondG` where node B is Running, used to exhibit
failure escalation on executor error. -/
def wFailState : RunState :=
  { initState (.num 0) with status := [("B", .running)] }

/-- A structurally valid graph (Input feeding Output) accepted by `validate`. -/
def okG : Graph :=
  { nodes := [⟨"i", .input⟩, ⟨"o", .output⟩], edges := [⟨"i", "out", "o", "in"⟩] }

/-- A graph with exactly one Input, one Output, no edges: acyclic and free of
dangling references, yet its Output node has no incoming edge. -/
def unfedG : Graph :=
  { nodes := [⟨"i", .input⟩, ⟨"o", .output⟩], edges := [] }

/-- A graph whose Condition node routes through an unrecognized port
"bogus", while satisfying the four structural conditions of the claim. -/
def badPortG : Graph :=
  { nodes := [⟨"i", .input⟩, ⟨"c", .condition [("t", [])] "f"⟩, ⟨"o", .output⟩]
    edges := [⟨"i", "out", "c", "x"⟩, ⟨"c", "bogus", "o", "in"⟩] }

end Workflow

namespace Models

/-!
Embedding of `customModelProvider.getModel` from src/src/lib/ai/models.ts.
Provider-SDK model objects are represented by opaque string tags carrying
the SDK call's argument; the registry is an ordered association list, the
model of a JavaScript object's own enumerable keys in insertion order.
-/

/-- The `ChatModel` argument type of `getModel`: a provider/model name pair. -/
structure ChatModel where
  provider : String
  model : String
  deriving DecidableEq, Repr

/-- The `staticModels` registry of src/src/lib/ai/models.ts: each provider's
models in source order, each value tagging the underlying SDK model id. -/
def staticModels : List (String × List (String × String)) :=
  [ ("openai",
      [ ("gpt-5", "openai:gpt-5")
      , ("gpt-5.1", "openai:gpt-5.1")
      , ("gpt-5-mini", "openai:gpt-5-mini")
      , ("gpt-4.1", "openai:gpt-4.1")
      , ("gpt-4.1-mini", "openai:gpt-4.1-mini")
      , ("gpt-4.1-nano", "openai:gpt-4.1-nano")
      , ("gpt-4o", "openai:gpt-4o")
      , ("gpt-4o-mini", "openai:gpt-4o-mini")
      , ("o4-mini", "openai:o4-mini")
      , ("gpt-realtime", "openai:gpt-realtime") ])
  , ("google",
      [ ("gemini-3-pro", "google:gemini-3-pro")
      , ("gemini-3-pro-image", "google:gemini-3-pro-image")
      , ("gemini-2.5-pro", "google:gemini-2.5-pro")
      , ("gemini-2.5-flash", "google:gemini-2.5-flash")
      , ("gemini-2.5-flash-lite", "google:gemini-2.5-flash-lite")
      , ("gemini-2.5-computer-use", "google:gemini-2.5-computer-use")
      , ("gemini-2.0-flash-lite", "google:gemini-2.0-flash-lite") ])
  , ("anthropic",
      [ ("claude-opus-4.5", "anthropic:claude-opus-4-5-20251101")
      , ("claude-sonnet-4.5", "anthropic:claude-sonnet-4-5-20250929")
      , ("claude-haiku-4.5", "anthropic:claude-haiku-4-5-20251015")
      , ("claude-3.7-sonnet", "anthropic:claude-3-7-sonnet-20250224") ])
  , ("xai",
      [ ("grok-3", "xai:grok-3-latest")
      , ("grok-3-mini", "xai:grok-3-mini-latest") ])
  , ("ollama",
      [ ("gemma3:1b", "ollama:gemma3:1b")
      , ("gemma3:4b", "ollama:gemma3:4b")
      , ("gemma3:12b", "ollama:gemma3:12b") ])
  , ("openRouter",
      [ ("qwen3-8b:free", "openrouter:qwen/qwen3-8b:free")
      , ("qwen3-14b:free", "openrouter:qwen/qwen3-14b:free") ]) ]

/-- JavaScript object-spread merge `{...a, ...b}`: keys of `a` keep their
position (with `b`'s value on collision), then `b`'s fresh keys follow. -/
def mergeObj {α : Type} (a b : List (String × α)) : List (String × α) :=
  a.map (fun p => (p.1, (lookupStr b p.1).getD p.2)) ++
    b.filter (fun p => (lookupStr a p.1).isNone)

/-- `allModels = { ...openaiCompatibleModels, ...staticModels }`, with the
environment-derived compatible providers abstracted as a parameter. -/
def allModels (compat : List (String × List (String × String))) :
    List (String × List (String × String)) :=
  mergeObj compat staticModels

/-- `allModels[firstProvider][firstModel]`: the first model of the first
provider, `none` when the registry or its first provider is empty. -/
def fallbackModel (am : List (String × List (String × String))) : Option String :=
  am.head?.bind (fun p => p.2.head?.map (·.2))

/-- `customModelProvider.getModel`: no argument yields the fallback model;
otherwise `allModels[model.provider]?.[model.model] || fallbackModel`. -/
def getModel (am : List (String × List (String × String)))
    (m : Option ChatModel) : Option String :=
  match m with
  | none => fallbackModel am
  | some cm =>
    match (lookupStr am cm.provider).bind (fun ms => lookupStr ms cm.model) with
    | some v => some v
    | none => fallbackModel am

end Models

namespace Gmail

/-!
Embedding of `listStarredEmails` from src/mcp-server/tools/readGmail.js.
The Gmail API is injected as data: the `messages.list` response and a
`messages.get` capability mapping message ids to message payloads.
-/

/-- One `payload.headers` entry of a Gmail message. -/
structure GmailHeader where
  name : String
  value : String
  deriving DecidableEq, Repr

/-- One entry of the `messages.list` response. -/
structure GmailMessage where
  id : String
  deriving DecidableEq, Repr

/-- The part of a `messages.get` response the function reads. -/
structure GmailMessageData where
  headers : List GmailHeader
  snippet : String
  deriving DecidableEq, Repr

/-- The part of the `messages.list` response the function reads: the
`messages` field may be absent. -/
structure GmailListResponse where
  messages : Option (List GmailMessage)
  deriving DecidableEq, Repr

/-- The result objects `{ subject, from, snippet }`. -/
structure EmailSummary where
  subject : String
  «from» : String
  snippet : String
  deriving DecidableEq, Repr

/-- `headers.find((h) => h.name === name)?.value || dflt`: the default is
used when the header is absent, and also when its value is empty (JavaScript
`||` treats the empty string as falsy). -/
def headerOr (headers : List GmailHeader) (name dflt : String) : String :=
  match headers.find? (fun h => h.name = name) with
  | none => dflt
  | some h => if h.value = "" then dflt else h.value

/-- The per-message mapping inside `listStarredEmails`. -/
def summarize (get : String → GmailMessageData) (m : GmailMessage) : EmailSummary :=
  let d := get m.id
  { subject := headerOr d.headers "Subject" "No subject"
    «from» := headerOr d.headers "From" "Unknown sender"
    snippet := d.snippet }

/-- `listStarredEmails`: an absent `messages` field yields `[]`; otherwise
each listed message is fetched and summarized. -/
def listStarredEmails (resp : GmailListResponse) (get : String → GmailMessageData) :
    List EmailSummary :=
  match resp.messages with
  | none => []
  | some msgs => msgs.map (summarize get)

end Gmail

namespace Chat

open Gmail

/-!
Embedding of `handleChat` from src/unnamed/part_001.  The OpenAI completion
endpoint and `listStarredEmails` are injected capabilities; a throwing
`listStarredEmails` is represented by an `Except.error` result.
-/

/-- One chat message of the payload. -/
structure ChatMsg where
  role : String
  content : String
  deriving DecidableEq, Repr

/-- The request payload fields `handleChat` destructures (`model_id`
defaults to "gpt-4"; `context_vars` and `tool_calls` are unused). -/
structure ChatPayload where
  system_prompt : Option String
  messages : List ChatMsg
  model_id : Option String
  deriving DecidableEq, Repr

/-- The reply message (`completion.choices[0].message` or the built-in
apology). -/
structure Reply where
  role : String
  content : String
  deriving DecidableEq, Repr

/-- Strip a literal pattern from the front of a character list. -/
def stripPre (pat l : List Char) : Option (List Char) :=
  match pat, l with
  | [], rest => some rest
  | p :: pt, c :: ct => if p = c then stripPre pt ct else none
  | _ :: _, [] => none

/-- After `email`/`emails` has been consumed: match
`" (about|with subject|from) "` and capture the rest of the line (the
regex's `(.+)` group, greedy, not crossing a newline, nonempty). -/
def keywordTail (l : List Char) : Option (List Char) :=
  ((stripPre " about ".toList l).orElse (fun _ =>
    (stripPre " with subject ".toList l).orElse (fun _ =>
      stripPre " from ".toList l))).bind
    (fun rest =>
      let cap := rest.takeWhile (fun c => c ≠ '\n')
      if cap.isEmpty then none else some cap)

/-- Match the regex `/emails? (about|with subject|from) (.+)/` at the head
of the list, returning the second capture group (greedy `s?` first). -/
def matchEmailAt (l : List Char) : Option (List Char) :=
  match stripPre "email".toList l with
  | none => none
  | some rest =>
    match rest with
    | 's' :: rest' => (keywordTail rest').orElse (fun _ => keywordTail rest)
    | _ => keywordTail rest

/-- Scan for the earliest match position of the regex. -/
def findEmailMatch : List Char → Option (List Char)
  | [] => none
  | c :: t => (matchEmailAt (c :: t)).orElse (fun _ => findEmailMatch t)

/-- `const match = lastUserMessage.match(/emails? (about|with subject|from) (.+)/i);
const keyword = match ? match[2] : ""` (the message is already lowercased). -/
def extractKeyword (s : String) : String :=
  match findEmailMatch s.toList with
  | some cap => String.mk cap
  | none => ""

/-- The numbered email summary block built in the email-tool branch. -/
def summaryBlock (emails : List EmailSummary) : String :=
  String.intercalate "\n\n"
    ((List.range emails.length).zip emails |>.map (fun p =>
      toString (p.1 + 1) ++ ". From: " ++ p.2.«from» ++
        "\n   Subject: " ++ p.2.subject ++
        "\n   Snippet: " ++ p.2.snippet))

/-- The email-tool branch's system prompt (after `.trim()`), with
`${keyword || "all"}` substituted. -/
def emailSystemPrompt (keyword summary : String) : String :=
  "You are an assistant with access to the user's ⭐ starred Gmail emails.\nThe user is asking about \"" ++
    (if keyword = "" then "all" else keyword) ++
    "\" emails.\nHere is a list of matching emails:\n\n" ++ summary ++
    "\n\nAnswer the user's question based on this."

/-- The fixed apology reply returned when `listStarredEmails` throws. -/
def apologyReply : Reply :=
  { role := "assistant"
    content := "I tried to check your starred emails but ran into an error. Please ensure your Gmail credentials and token are correctly set." }

/-- The optional system message prepended to the user messages in the
fallback branch. -/
def systemMsgs (p : ChatPayload) : List ChatMsg :=
  match p.system_prompt with
  | some sp => [⟨"system", sp⟩]
  | none => []

/-- `handleChat` from src/unnamed/part_001: when the lowercased last user
message contains "email" or "starred", the email-tool branch runs —
returning the fixed apology if `listStarredEmails` throws, otherwise a
completion over the email system prompt and the last user message; every
other payload is forwarded (optional system prompt plus the user messages,
unchanged) to the completion capability. -/
def handleChat (complete : String → List ChatMsg → Reply)
    (listStarred : String → Except String (List EmailSummary))
    (p : ChatPayload) : Reply :=
  let modelId := p.model_id.getD "gpt-4"
  let chatMessages := systemMsgs p ++ p.messages
  let lastUserMessage := p.messages.getLast?.map (fun m => strToLower m.content)
  let isEmailQuery :=
    match lastUserMessage with
    | some s => strContains s "email" || strContains s "starred"
    | none => false
  if isEmailQuery then
    let lum := (lastUserMessage.getD "")
    let keyword := extractKeyword lum
    match listStarred keyword with
    | .ok emails =>
      complete modelId
        [⟨"system", emailSystemPrompt keyword (summaryBlock emails)⟩, ⟨"user", lum⟩]
    | .error _ => apologyReply
  else
    complete modelId chatMessages

end Chat

/-! ## Scheduler helper lemmas -/

namespace Workflow

theorem getStatus_setStatus (st : RunState) (i : String) (s : NodeStatus) (j : String) :
    getStatus (setStatus st i s) j = if i = j then s else getStatus st j := by
  by_cases h : i = j <;> simp [getStatus, setStatus, lookupStr, h]

theorem getStatus_appendEvent (st : RunState) (i : String) (s : NodeStatus) (j : String) :
    getStatus (appendEvent st i s) j = getStatus st j := rfl

theorem getStatus_recordTransition (st : RunState) (i : String) (s : NodeStatus) (j : String) :
    getStatus (recordTransition st i s) j = if i = j then s else getStatus st j := by
  simp [recordTransition, getStatus_appendEvent, getStatus_setStatus]

theorem getStatus_applyReady (st : RunState) (n : Node) (j : String) :
    getStatus (applyReady st n) j = if n.id = j then .ready else getStatus st j :=
  getStatus_recordTransition ..

theorem getStatus_applySkip (st : RunState) (n : Node) (j : String) :
    getStatus (applySkip st n) j = if n.id = j then .skipped else getStatus st j :=
  getStatus_recordTransition ..

theorem getStatus_applyDispatch (st : RunState) (n : Node) (j : String) :
    getStatus (applyDispatch st n) j = if n.id = j then .running else getStatus st j :=
  getStatus_recordTransition ..

theorem getStatus_applyCancel (st : RunState) (j : String) :
    getStatus (applyCancel st) j = getStatus st j := rfl

theorem getStatus_applyFinish_ne (g : Graph)
    (exec : Node → List (String × Value) → Except String Value)
    (st : RunState) (n : Node) (j : String) (h : n.id ≠ j) :
    getStatus (applyFinish g exec st n) j = getStatus st j := by
  unfold applyFinish
  split
  · simp [getStatus_recordTransition, h, getStatus, setStatus, lookupStr]
  · simp [getStatus_recordTransition, h, getStatus, setStatus, lookupStr]
  · rcases hx : execNode exec st.payload n (resolveInputs g st n) with v | msg <;>
      simp [hx, h, getStatus, recordTransition, appendEvent, setStatus, lookupStr]

theorem getStatus_applyFinish_self (g : Graph)
    (exec : Node → List (String × Value) → Except String Value)
    (st : RunState) (n : Node) :
    getStatus (applyFinish g exec st n) n.id = .succeeded ∨
      getStatus (applyFinish g exec st n) n.id = .failed := by
  unfold applyFinish
  split
  · left; simp [getStatus_recordTransition]
  · left; simp [getStatus_recordTransition]
  · rcases hx : execNode exec st.payload n (resolveInputs g st n) with v | msg
    · right; simp [hx, getStatus_recordTransition]
    · left; simp [hx, getStatus_recordTransition]

end Workflow

namespace Workflow

theorem step_status_cases {g : Graph}
    {exec : Node → List (String × Value) → Except String Value}
    {s s' : RunState} (h : Step g exec s s') (j : String) :
    getStatus s' j = getStatus s j ∨
      (getStatus s j = .pending ∧
        (getStatus s' j = .ready ∨ getStatus s' j = .skipped)) ∨
      (getStatus s j = .ready ∧ getStatus s' j = .running ∧
        s.cancelled = false ∧ s.failed = none) ∨
      (getStatus s j = .running ∧
        (getStatus s' j = .succeeded ∨ getStatus s' j = .failed)) := by
  cases h with
  | ready n hn hp hr =>
    by_cases hid : n.id = j
    · subst hid
      right; left
      exact ⟨hp, Or.inl (by simp [getStatus_applyReady])⟩
    · left; simp [getStatus_applyReady, hid]
  | skip n hn hp hs =>
    by_cases hid : n.id = j
    · subst hid
      right; left
      exact ⟨hp, Or.inr (by simp [getStatus_applySkip])⟩
    · left; simp [getStatus_applySkip, hid]
  | dispatch n hn hr hc hf =>
    by_cases hid : n.id = j
    · subst hid
      right; right; left
      exact ⟨hr, by simp [getStatus_applyDispatch], hc, hf⟩
    · left; simp [getStatus_applyDispatch, hid]
  | finish n hn hr =>
    by_cases hid : n.id = j
    · subst hid
      right; right; right
      exact ⟨hr, getStatus_applyFinish_self g exec s n⟩
    · left; exact getStatus_applyFinish_ne g exec s n j hid
  | cancel =>
    left; rfl

theorem step_preserves_terminal {g : Graph}
    {exec : Node → List (String × Value) → Except String Value}
    {s s' : RunState} (h : Step g exec s s') (j : String) (t : NodeStatus)
    (ht : getStatus s j = t)
    (h1 : t ≠ .pending) (h2 : t ≠ .ready) (h3 : t ≠ .running) :
    getStatus s' j = t := by
  rcases step_status_cases h j with he | ⟨hp, _⟩ | ⟨hp, _⟩ | ⟨hp, _⟩
  · rw [he, ht]
  · exact absurd (ht ▸ hp) h1
  · exact absurd (ht ▸ hp) h2
  · exact absurd (ht ▸ hp) h3

theorem reaches_preserves_terminal {g : Graph}
    {exec : Node → List (String × Value) → Except String Value}
    {s s' : RunState} (h : Reaches g exec s s') (j : String) (t : NodeStatus)
    (ht : getStatus s j = t)
    (h1 : t ≠ .pending) (h2 : t ≠ .ready) (h3 : t ≠ .running) :
    getStatus s' j = t := by
  induction h with
  | refl => exact ht
  | tail _ hstep ih => exact step_preserves_terminal hstep j t ih h1 h2 h3

theorem applyFinish_failed_mono (g : Graph)
    (exec : Node → List (String × Value) → Except String Value)
    (st : RunState) (n : Node) {i : String} (h : st.failed = some i) :
    (applyFinish g exec st n).failed = some i := by
  unfold applyFinish
  split
  · simp [recordTransition, appendEvent, setStatus, h]
  · simp [recordTransition, appendEvent, setStatus, h]
  · rcases hx : execNode exec st.payload n (resolveInputs g st n) with v | msg <;>
      simp [hx, recordTransition, appendEvent, setStatus, h]

theorem step_failed_mono {g : Graph}
    {exec : Node → List (String × Value) → Except String Value}
    {s s' : RunState} (h : Step g exec s s') {i : String}
    (hi : s.failed = some i) : s'.failed = some i := by
  cases h with
  | ready n hn hp hr => simpa [applyReady, recordTransition, appendEvent, setStatus] using hi
  | skip n hn hp hs => simpa [applySkip, recordTransition, appendEvent, setStatus] using hi
  | dispatch n hn hr hc hf => simpa [applyDispatch, recordTransition, appendEvent, setStatus] using hi
  | finish n hn hr => exact applyFinish_failed_mono g exec s n hi
  | cancel => simpa [applyCancel] using hi

theorem reaches_failed_mono {g : Graph}
    {exec : Node → List (String × Value) → Except String Value}
    {s s' : RunState} (h : Reaches g exec s s') {i : String}
    (hi : s.failed = some i) : s'.failed = some i := by
  induction h with
  | refl => exact hi
  | tail _ hstep ih => exact step_failed_mono hstep ih

theorem step_cancelled_mono {g : Graph}
    {exec : Node → List (String × Value) → Except String Value}
    {s s' : RunState} (h : Step g exec s s')
    (hc : s.cancelled = true) : s'.cancelled = true := by
  cases h with
  | ready n hn hp hr => simpa [applyReady, recordTransition, appendEvent, setStatus] using hc
  | skip n hn hp hs => simpa [applySkip, recordTransition, appendEvent, setStatus] using hc
  | dispatch n hn hr hcc hf => simpa [applyDispatch, recordTransition, appendEvent, setStatus] using hc
  | finish n hn hr =>
    unfold applyFinish
    split
    · simpa [recordTransition, appendEvent, setStatus] using hc
    · simpa [recordTransition, appendEvent, setStatus] using hc
    · rcases hx : execNode exec s.payload n (resolveInputs g s n) with v | msg <;>
        simpa [hx, recordTransition, appendEvent, setStatus] using hc
  | cancel => rfl

theorem reaches_cancelled_mono {g : Graph}
    {exec : Node → List (String × Value) → Except String Value}
    {s s' : RunState} (h : Reaches g exec s s')
    (hc : s.cancelled = true) : s'.cancelled = true := by
  induction h with
  | refl => exact hc
  | tail _ hstep ih => exact step_cancelled_mono hstep ih

end Workflow

namespace Workflow

theorem applyFinish_trace (g : Graph)
    (exec : Node → List (String × Value) → Except String Value)
    (st : RunState) (n : Node) :
    ∃ ns, (applyFinish g exec st n).trace = st.trace ++ [⟨st.nextSeq, n.id, ns⟩] ∧
      (applyFinish g exec st n).nextSeq = st.nextSeq + 1 := by
  unfold applyFinish
  split
  · exact ⟨.succeeded, rfl, rfl⟩
  · exact ⟨.succeeded, rfl, rfl⟩
  · rcases hx : execNode exec st.payload n (resolveInputs g st n) with v | msg
    · exact ⟨.failed, by simp [hx, recordTransition, appendEvent, setStatus]⟩
    · exact ⟨.succeeded, by simp [hx, recordTransition, appendEvent, setStatus]⟩

theorem step_trace {g : Graph}
    {exec : Node → List (String × Value) → Except String Value}
    {s s' : RunState} (h : Step g exec s s') :
    (∃ ev : TraceEvent, s'.trace = s.trace ++ [ev] ∧
      s'.nextSeq = s.nextSeq + 1 ∧ ev.seq = s.nextSeq) ∨
    (s'.trace = s.trace ∧ s'.nextSeq = s.nextSeq ∧
      ∀ j, getStatus s' j = getStatus s j) := by
  cases h with
  | ready n hn hp hr => exact Or.inl ⟨⟨s.nextSeq, n.id, .ready⟩, rfl, rfl, rfl⟩
  | skip n hn hp hs => exact Or.inl ⟨⟨s.nextSeq, n.id, .skipped⟩, rfl, rfl, rfl⟩
  | dispatch n hn hr hc hf => exact Or.inl ⟨⟨s.nextSeq, n.id, .running⟩, rfl, rfl, rfl⟩
  | finish n hn hr =>
    obtain ⟨ns, ht, hs⟩ := applyFinish_trace g exec s n
    exact Or.inl ⟨⟨s.nextSeq, n.id, ns⟩, ht, hs, rfl⟩
  | cancel => exact Or.inr ⟨rfl, rfl, fun _ => rfl⟩

theorem reaches_trace_extends {g : Graph}
    {exec : Node → List (String × Value) → Except String Value}
    {s s' : RunState} (h : Reaches g exec s s') :
    ∃ t, s'.trace = s.trace ++ t := by
  induction h with
  | refl => exact ⟨[], by simp⟩
  | tail _ hstep ih =>
    obtain ⟨t, ht⟩ := ih
    rcases step_trace hstep with ⟨ev, he, _, _⟩ | ⟨he, _, _⟩
    · exact ⟨t ++ [ev], by simp [he, ht]⟩
    · exact ⟨t, by simp [he, ht]⟩

theorem reaches_trace_seq_range {g : Graph}
    {exec : Node → List (String × Value) → Except String Value}
    {p : Value} {s : RunState} (h : Reaches g exec (initState p) s) :
    s.trace.map TraceEvent.seq = List.range s.nextSeq := by
  induction h with
  | refl => rfl
  | tail _ hstep ih =>
    rcases step_trace hstep with ⟨ev, he, hn, hseq⟩ | ⟨he, hn, _⟩
    · rw [he, hn, List.map_append, ih, List.range_succ]
      simp [hseq]
    · rw [he, hn, ih]

end Workflow

namespace Workflow

theorem find?_of_first_satisfied {α : Type} (p : α → Bool) :
    ∀ (l : List α) (i : Nat) (b : α), l.get? i = some b → p b = true →
      (∀ j bj, j < i → l.get? j = some bj → p bj = false) →
      l.find? p = some b
  | [], i, b, hget, _, _ => by simp at hget
  | x :: t, 0, b, hget, hp, _ => by
    simp at hget
    subst hget
    simp [List.find?, hp]
  | x :: t, i + 1, b, hget, hp, hfirst => by
    have hx : p x = false := hfirst 0 x (Nat.succ_pos i) rfl
    have ht : t.find? p = some b :=
      find?_of_first_satisfied p t i b (by simpa using hget) hp
        (fun j bj hj hg => hfirst (j + 1) bj (Nat.succ_lt_succ hj) (by simpa using hg))
    simp [List.find?, hx, ht]

end Workflow

open Workflow

/-- C4: for a Condition node with resolved inputs, clause evaluation is
total — a clause whose field reference cannot be resolved evaluates to false
and never throws — and exactly one branch is selected: the first branch in
declared order whose clauses are all true, with the else-branch matching
whenever no declared branch does; for clauses `[score > 5]`, input
`score = 10` selects the if-branch while `score = 3` and a missing `score`
field select the else-branch. -/
theorem claim4_condition_total_first_match :
    (∀ (input : List (String × Value)) (c : Clause),
      lookupStr input c.field = none → evalClause input c = false) ∧
    (∀ (branches : List (String × List Clause)) (elsePort : String)
        (input : List (String × Value)) (i : Nat) (b : String × List Clause),
      branches.get? i = some b → branchSatisfied input b.2 = true →
      (∀ j bj, j < i → branches.get? j = some bj →
        branchSatisfied input bj.2 = false) →
      selectPort branches elsePort input = b.1) ∧
    (∀ (branches : List (String × List Clause)) (elsePort : String)
        (input : List (String × Value)),
      (∀ b ∈ branches, branchSatisfied input b.2 = false) →
      selectPort branches elsePort input = elsePort) ∧
    (selectPort [("if", [⟨"score", .gt, .num 5⟩])] "else" [("score", .num 10)] = "if" ∧
      selectPort [("if", [⟨"score", .gt, .num 5⟩])] "else" [("score", .num 3)] = "else" ∧
      selectPort [("if", [⟨"score", .gt, .num 5⟩])] "else" [] = "else") := by
  refine ⟨?_, ?_, ?_, by decide, by decide, by decide⟩
  · intro input c h
    simp [evalClause, h]
  · intro branches elsePort input i b hget hp hfirst
    have := find?_of_first_satisfied (fun x => branchSatisfied input x.2)
      branches i b hget hp
      (fun j bj hj hg => by simpa using hfirst j bj hj hg)
    simp [selectPort, this]
  · intro branches elsePort input h
    have : branches.find? (fun x => branchSatisfied input x.2) = none :=
      List.find?_eq_none.mpr (fun b hb => by simp [h b hb])
    simp [selectPort, this]

/-- C4 witness: the missing-field clause of the spec's example evaluates to
false via the theorem's first conjunct at a concrete input. -/
theorem claim4_condition_total_first_match_witness :
    evalClause [] ⟨"score", .gt, .num 5⟩ = false :=
  claim4_condition_total_first_match.1 [] ⟨"score", .gt, .num 5⟩ rfl

/-- C5 counterexample: `unfedG` has exactly one Input node, one Output node,
no cycle and no dangling edge reference, yet `validate` rejects it (its
Output node has no incoming edge); `badPortG` additionally feeds every
non-Input node, yet `validate` rejects it (its Condition node routes
through an unrecognized port). -/
theorem claim5_validate_counterexample :
    (exactlyOneInput unfedG = true ∧ atLeastOneOutput unfedG = true ∧
      functionalAcyclic unfedG = true ∧ noDanglingEdges unfedG = true ∧
      validate unfedG ≠ []) ∧
    (exactlyOneInput badPortG = true ∧ atLeastOneOutput badPortG = true ∧
      functionalAcyclic badPortG = true ∧ noDanglingEdges badPortG = true ∧
      allNonInputFed badPortG = true ∧ validate badPortG ≠ []) := by
  decide

/-- C5 (amended): `validate` accepts every graph passing all six documented
checks — exactly one Input, at least one Output, acyclicity over functional
nodes, no dangling edge references, every non-Input node fed by at least
one incoming edge, and Condition nodes exposing only recognized branch
ports — and when it fails it enumerates every violated check, not just the
first. -/
theorem claim5_validate_accepts_and_enumerates :
    (∀ g : Graph,
      exactlyOneInput g = true → atLeastOneOutput g = true →
      functionalAcyclic g = true → noDanglingEdges g = true →
      allNonInputFed g = true → conditionPortsOk g = true →
      validate g = []) ∧
    (∀ g : Graph, exactlyOneInput g = false →
      "expected exactly one Input node" ∈ validate g) ∧
    (∀ g : Graph, atLeastOneOutput g = false →
      "expected at least one Output node" ∈ validate g) ∧
    (∀ g : Graph, functionalAcyclic g = false →
      "cycle among functional nodes" ∈ validate g) ∧
    (∀ g : Graph, noDanglingEdges g = false →
      "edge references a missing node" ∈ validate g) ∧
    (∀ g : Graph, allNonInputFed g = false →
      "non-Input node without incoming edge" ∈ validate g) ∧
    (∀ g : Graph, conditionPortsOk g = false →
      "unrecognized Condition branch port" ∈ validate g) := by
  refine ⟨?_, ?_, ?_, ?_, ?_, ?_, ?_⟩
  · intro g h1 h2 h3 h4 h5 h6
    simp [validate, h1, h2, h3, h4, h5, h6]
  all_goals intro g h
  all_goals simp [validate, h]

/-- C5 witness: the amended acceptance conjunct applied to the concrete
valid graph `okG`. -/
theorem claim5_validate_accepts_and_enumerates_witness :
    validate okG = [] :=
  claim5_validate_accepts_and_enumerates.1 okG (by decide) (by decide)
    (by decide) (by decide) (by decide) (by decide)

/-- C1: a node with incoming edges is admitted Ready only once every
incoming edge has resolved (source Succeeded-and-live, or a satisfied Skip)
and at least one incoming edge resolved as Succeeded-and-live; in the
diamond scenario where the A branch is pruned and the B branch succeeds,
the join node J becomes Ready and executes using only B's output. -/
theorem claim1_join_synchronization :
    (∀ (g : Graph) (exec : Node → List (String × Value) → Except String Value)
        (s s' : RunState) (n : Node),
      Step g exec s s' →
      getStatus s n.id = .pending → getStatus s' n.id = .ready →
      incoming g n.id ≠ [] →
      (incoming g n.id).all (resolvedEdge s) = true ∧
        (incoming g n.id).any (liveSuccEdge g s) = true) ∧
    (getStatus diamondFinal "A2" = .skipped ∧
      getStatus diamondFinal "B" = .succeeded ∧
      getStatus diamondFinal "J" = .succeeded ∧
      lookupStr diamondFinal.outputs "J" = some (.str "b") ∧
      diamondFinal.result = some [("res", .str "b")]) := by
  constructor
  · intro g exec s s' n hstep hp hr hne
    cases hstep with
    | ready m hm hpm hrm =>
      by_cases hid : m.id = n.id
      · simp [readyToRun] at hrm
        rw [hid] at hrm
        rcases hrm.2 with ⟨_, hempty⟩ | hok
        · exact absurd hempty hne
        · exact ⟨List.all_eq_true.mpr hok.1, List.any_eq_true.mpr hok.2⟩
      · simp [getStatus_applyReady, hid, hp] at hr
    | skip m hm hpm hsm =>
      by_cases hid : m.id = n.id
      · simp [getStatus_applySkip, hid] at hr
      · simp [getStatus_applySkip, hid, hp] at hr
    | dispatch m hm hrm hc hf =>
      by_cases hid : m.id = n.id
      · simp [getStatus_applyDispatch, hid] at hr
      · simp [getStatus_applyDispatch, hid, hp] at hr
    | finish m hm hrm =>
      by_cases hid : m.id = n.id
      · rcases hid ▸ getStatus_applyFinish_self g exec s m with h2 | h2 <;>
          rw [hr] at h2 <;> simp at h2
      · rw [getStatus_applyFinish_ne g exec s m n.id hid, hp] at hr
        simp at hr
    | cancel =>
      rw [getStatus_applyCancel, hp] at hr
      simp at hr
  · refine ⟨by decide, by decide, by decide, by decide, by decide⟩

/-- C1 witness: the readiness conjunct applied to the concrete admission of
node s1 in `lineG` from the state where the Input node has succeeded. -/
theorem claim1_join_synchronization_witness :
    (incoming lineG "s1").all (resolvedEdge wReadyState) = true ∧
      (incoming lineG "s1").any (liveSuccEdge lineG wReadyState) = true :=
  claim1_join_synchronization.1 lineG idExec wReadyState
    (applyReady wReadyState ⟨"s1", .tool⟩) ⟨"s1", .tool⟩
    (Step.ready wReadyState ⟨"s1", .tool⟩ (by decide) (by decide) (by decide))
    (by decide) (by decide) (by decide)

/-- C2: a node all of whose predecessors are Skipped is never admitted
Ready or dispatched Running — the Scheduler instead has the pruning
transition to Skipped available — and in the diamond scenario the pruning
propagates transitively: A and its successor A2 are both Skipped while the
run still succeeds through the live branch. -/
theorem claim2_propagated_pruning :
    (∀ (g : Graph) (exec : Node → List (String × Value) → Except String Value)
        (s s' : RunState) (n : Node),
      Step g exec s s' →
      incoming g n.id ≠ [] →
      (∀ e ∈ incoming g n.id, getStatus s e.source = .skipped) →
      getStatus s n.id = .pending →
      getStatus s' n.id ≠ .ready ∧ getStatus s' n.id ≠ .running) ∧
    (∀ (g : Graph) (exec : Node → List (String × Value) → Except String Value)
        (s : RunState) (n : Node),
      n ∈ g.nodes →
      n.kind.isNote = false → n.kind.isInput = false →
      incoming g n.id ≠ [] →
      (∀ e ∈ incoming g n.id, getStatus s e.source = .skipped) →
      getStatus s n.id = .pending →
      Step g exec s (applySkip s n) ∧
        getStatus (applySkip s n) n.id = .skipped) ∧
    (getStatus diamondFinal "A" = .skipped ∧
      getStatus diamondFinal "A2" = .skipped ∧
      runStatus diamondG diamondFinal = .succeeded) := by
  refine ⟨?_, ?_, by decide, by decide, by decide⟩
  · intro g exec s s' n hstep hne hskip hp
    cases hstep with
    | ready m hm hpm hrm =>
      by_cases hid : m.id = n.id
      · exfalso
        simp [readyToRun] at hrm
        rw [hid] at hrm
        rcases hrm.2 with ⟨_, hempty⟩ | ⟨_, e, he, hlive⟩
        · exact hne hempty
        · simp [liveSuccEdge] at hlive
          rw [hskip e he] at hlive
          simp at hlive
      · constructor <;> simp [getStatus_applyReady, hid, hp]
    | skip m hm hpm hsm =>
      by_cases hid : m.id = n.id <;>
        constructor <;> simp [getStatus_applySkip, hid, hp]
    | dispatch m hm hrm hc hf =>
      by_cases hid : m.id = n.id
      · rw [hid] at hrm
        rw [hp] at hrm
        simp at hrm
      · constructor <;> simp [getStatus_applyDispatch, hid, hp]
    | finish m hm hrm =>
      by_cases hid : m.id = n.id
      · rw [hid, hp] at hrm
        simp at hrm
      · constructor <;>
          rw [getStatus_applyFinish_ne g exec s m n.id hid, hp] <;> simp
    | cancel =>
      constructor <;> rw [getStatus_applyCancel, hp] <;> simp
  · intro g exec s n hn hnote hinput hne hskip hp
    have hss : shouldSkip g s n = true := by
      simp [shouldSkip, hnote, hinput]
      refine ⟨⟨hne, ?_⟩, ?_⟩
      · intro e he
        simp [resolvedEdge]
        left
        exact hskip e he
      · intro e he
        simp [liveSuccEdge]
        intro hsucc
        rw [hskip e he] at hsucc
        simp at hsucc
    exact ⟨Step.skip s n hn hp hss, by simp [getStatus_applySkip]⟩

/-- C2 witness: the pruning conjunct applied to node s1 of `lineG` in the
state where its only predecessor (the Input node) is Skipped. -/
theorem claim2_propagated_pruning_witness :
    Step lineG idExec wSkipState (applySkip wSkipState ⟨"s1", .tool⟩) ∧
      getStatus (applySkip wSkipState ⟨"s1", .tool⟩) "s1" = .skipped :=
  claim2_propagated_pruning.2.1 lineG idExec wSkipState ⟨"s1", .tool⟩
    (by decide) (by decide) (by decide) (by decide) (by decide) (by decide)

namespace Workflow

theorem applyFinish_failed_cases (g : Graph)
    (exec : Node → List (String × Value) → Except String Value)
    (st : RunState) (n : Node) :
    (applyFinish g exec st n).failed = st.failed ∨
      ((applyFinish g exec st n).failed = some (st.failed.getD n.id) ∧
        getStatus (applyFinish g exec st n) n.id = .failed) := by
  unfold applyFinish
  split
  · left; simp [recordTransition, appendEvent, setStatus]
  · left; simp [recordTransition, appendEvent, setStatus]
  · rcases hx : execNode exec st.payload n (resolveInputs g st n) with v | msg
    · right
      constructor
      · simp [hx, recordTransition, appendEvent, setStatus]
      · simp [hx, getStatus_recordTransition]
    · left; simp [hx, recordTransition, appendEvent, setStatus]

theorem applyReady_failed (st : RunState) (n : Node) :
    (applyReady st n).failed = st.failed := rfl

theorem applySkip_failed (st : RunState) (n : Node) :
    (applySkip st n).failed = st.failed := rfl

theorem applyDispatch_failed (st : RunState) (n : Node) :
    (applyDispatch st n).failed = st.failed := rfl

theorem reaches_failed_names_failed_node {g : Graph}
    {exec : Node → List (String × Value) → Except String Value}
    {p : Value} {s : RunState} (h : Reaches g exec (initState p) s) :
    ∀ i, s.failed = some i → getStatus s i = .failed := by
  induction h with
  | refl => intro i hi; simp [initState] at hi
  | tail hr hstep ih =>
    intro i hi
    cases hstep with
    | ready m hm hpm hrm =>
      rw [applyReady_failed] at hi
      have hold := ih i hi
      have hne : m.id ≠ i := fun he => by rw [he, hold] at hpm; simp at hpm
      rw [getStatus_applyReady]
      simp [hne, hold]
    | skip m hm hpm hsm =>
      rw [applySkip_failed] at hi
      have hold := ih i hi
      have hne : m.id ≠ i := fun he => by rw [he, hold] at hpm; simp at hpm
      rw [getStatus_applySkip]
      simp [hne, hold]
    | dispatch m hm hrm hc hf =>
      rw [applyDispatch_failed] at hi
      have hold := ih i hi
      have hne : m.id ≠ i := fun he => by rw [he, hold] at hrm; simp at hrm
      rw [getStatus_applyDispatch]
      simp [hne, hold]
    | finish m hm hrm =>
      rcases applyFinish_failed_cases g exec _ m with hpres | ⟨herr, hstat⟩
      · rw [hpres] at hi
        have hold := ih i hi
        have hne : m.id ≠ i := fun he => by rw [he, hold] at hrm; simp at hrm
        rw [getStatus_applyFinish_ne g exec _ m i hne]
        exact hold
      · rw [herr] at hi
        rcases hu : (_ : RunState).failed with _ | j
        · rw [hu] at hi
          simp at hi
          rw [← hi]
          exact hstat
        · rw [hu] at hi
          simp at hi
          subst hi
          have hold := ih j hu
          have hne : m.id ≠ j := fun he => by rw [he, hold] at hrm; simp at hrm
          rw [getStatus_applyFinish_ne g exec _ m j hne]
          exact hold
    | cancel =>
      exact ih i hi

end Workflow

namespace Workflow

theorem reaches_no_success_after_failure {g : Graph}
    {exec : Node → List (String × Value) → Except String Value}
    {s s' : RunState} (h : Reaches g exec s s') {i : String}
    (hfail : s.failed = some i) (j : String)
    (hj : getStatus s j = .pending ∨ getStatus s j = .ready ∨
      getStatus s j = .skipped) :
    getStatus s' j = .pending ∨ getStatus s' j = .ready ∨
      getStatus s' j = .skipped := by
  induction h with
  | refl => exact hj
  | tail hr hstep ih =>
    have hu := ih
    have hufail := reaches_failed_mono hr hfail
    rcases step_status_cases hstep j with he | ⟨_, hrdy⟩ | ⟨_, _, _, hnone⟩ | ⟨hrun, _⟩
    · rw [he]; exact hu
    · rcases hrdy with h1 | h1
      · exact Or.inr (Or.inl h1)
      · exact Or.inr (Or.inr h1)
    · rw [hufail] at hnone; simp at hnone
    · rcases hu with h1 | h1 | h1 <;> rw [h1] at hrun <;> simp at hrun

end Workflow

/-- C3: a node failure escalates to run-level failure exactly on live paths:
finishing a live node whose executor raises an error records that node as
the run's failing node and marks it Failed; the failing node id always
refers to a node in Failed state (so a Skipped — pruned — node is never the
failing node); once some live node has failed no Pending or Ready node can
ever reach Succeeded; Skipped status is terminal; and in the concrete
scenario where B's capability raises while B's branch is live the run
status is Failed with failingNodeId "B" and the Output node never reaches
Succeeded, while the Failed-free pruned branch A stays Skipped. -/
theorem claim3_failure_escalation_respects_liveness :
    (∀ (g : Graph) (exec : Node → List (String × Value) → Except String Value)
        (s : RunState) (n : Node) (msg : String),
      n.kind.isCondition = false → n.kind.isOutput = false →
      execNode exec s.payload n (resolveInputs g s n) = .error msg →
      s.failed = none →
      (applyFinish g exec s n).failed = some n.id ∧
        getStatus (applyFinish g exec s n) n.id = .failed) ∧
    (∀ (g : Graph) (exec : Node → List (String × Value) → Except String Value)
        (p : Value) (s : RunState) (i : String),
      Reaches g exec (initState p) s → s.failed = some i →
      getStatus s i = .failed) ∧
    (∀ (g : Graph) (exec : Node → List (String × Value) → Except String Value)
        (s s' : RunState) (i j : String),
      Reaches g exec s s' → s.failed = some i →
      s'.failed = some i ∧
        ((getStatus s j = .pending ∨ getStatus s j = .ready) →
          getStatus s' j ≠ .succeeded)) ∧
    (∀ (g : Graph) (exec : Node → List (String × Value) → Except String Value)
        (s s' : RunState) (j : String),
      Reaches g exec s s' → getStatus s j = .skipped →
      getStatus s' j = .skipped) ∧
    (diamondFailFinal.failed = some "B" ∧
      runStatus diamondG diamondFailFinal = .failed ∧
      getStatus diamondFailFinal "o" ≠ .succeeded ∧
      getStatus diamondFailFinal "A" = .skipped ∧
      lookupStr diamondFailFinal.errors "B" = some "boom") := by
  refine ⟨?_, ?_, ?_, ?_, by decide, by decide, by decide, by decide, by decide⟩
  · intro g exec s n msg hcond hout herr hnone
    unfold applyFinish
    split
    · rename_i br ep heq
      rw [heq] at hcond
      simp [NodeKind.isCondition] at hcond
    · rename_i heq
      rw [heq] at hout
      simp [NodeKind.isOutput] at hout
    · simp only [herr]
      constructor
      · simp [recordTransition, appendEvent, setStatus, hnone]
      · simp [getStatus_recordTransition]
  · intro g exec p s i h hi
    exact reaches_failed_names_failed_node h i hi
  · intro g exec s s' i j h hfail
    refine ⟨reaches_failed_mono h hfail, fun hj hsucc => ?_⟩
    rcases reaches_no_success_after_failure h hfail j
        (by rcases hj with h1 | h1; exact Or.inl h1; exact Or.inr (Or.inl h1))
      with h1 | h1 | h1 <;> rw [hsucc] at h1 <;> simp at h1
  · intro g exec s s' j h hsk
    exact reaches_preserves_terminal h j .skipped hsk
      (by simp) (by simp) (by simp)

/-- C3 witness: the escalation conjunct applied to the concrete finish of
Running node B in `diamondG` under the failing capability. -/
theorem claim3_failure_escalation_respects_liveness_witness :
    (applyFinish diamondG failBExec wFailState ⟨"B", .tool⟩).failed = some "B" ∧
      getStatus (applyFinish diamondG failBExec wFailState ⟨"B", .tool⟩) "B" = .failed :=
  claim3_failure_escalation_respects_liveness.1 diamondG failBExec wFailState
    ⟨"B", .tool⟩ "boom" (by decide) (by decide) rfl rfl

/-- C6: every Scheduler step appends exactly one trace event (the
cancellation signal appends none and changes no node status), traces only
grow — past events are never mutated — and along any run from the initial
state the event sequence numbers are strictly monotonic. -/
theorem claim6_trace_append_only_monotonic :
    (∀ (g : Graph) (exec : Node → List (String × Value) → Except String Value)
        (s s' : RunState), Step g exec s s' →
      (∃ ev : TraceEvent, s'.trace = s.trace ++ [ev]) ∨
        (s'.trace = s.trace ∧ ∀ j, getStatus s' j = getStatus s j)) ∧
    (∀ (g : Graph) (exec : Node → List (String × Value) → Except String Value)
        (s s' : RunState), Reaches g exec s s' →
      ∃ t, s'.trace = s.trace ++ t) ∧
    (∀ (g : Graph) (exec : Node → List (String × Value) → Except String Value)
        (p : Value) (s : RunState), Reaches g exec (initState p) s →
      (s.trace.map TraceEvent.seq).Pairwise (· < ·)) := by
  refine ⟨?_, ?_, ?_⟩
  · intro g exec s s' h
    rcases step_trace h with ⟨ev, he, _, _⟩ | ⟨he, _, hs⟩
    · exact Or.inl ⟨ev, he⟩
    · exact Or.inr ⟨he, hs⟩
  · intro g exec s s' h
    exact reaches_trace_extends h
  · intro g exec p s h
    rw [reaches_trace_seq_range h]
    exact List.pairwise_lt_range _

/-- C6 witness: the monotonicity conjunct applied to the empty run from the
initial state of `lineG`. -/
theorem claim6_trace_append_only_monotonic_witness :
    ((initState (Value.num 1)).trace.map TraceEvent.seq).Pairwise (· < ·) :=
  claim6_trace_append_only_monotonic.2.2 lineG idExec (.num 1)
    (initState (.num 1)) Relation.ReflTransGen.refl

/-- C7: after the cancellation signal no Ready node is ever dispatched to
Running, cancellation is permanent, an in-flight Running node may still
finish — appending its trace event and reaching a terminal state — and a
cancelled, failure-free run seals with status Cancelled, which is distinct
from Failed; in the concrete two-stage scenario the in-flight stage-1 node
completes and is recorded while stage 2 is never dispatched. -/
theorem claim7_cancellation_stops_dispatch :
    (∀ (g : Graph) (exec : Node → List (String × Value) → Except String Value)
        (s s' : RunState), Step g exec s s' → s.cancelled = true →
      ∀ j, getStatus s j = .ready → getStatus s' j ≠ .running) ∧
    (∀ (g : Graph) (exec : Node → List (String × Value) → Except String Value)
        (s s' : RunState), Reaches g exec s s' → s.cancelled = true →
      s'.cancelled = true) ∧
    (∀ (g : Graph) (exec : Node → List (String × Value) → Except String Value)
        (s : RunState) (n : Node), n ∈ g.nodes → getStatus s n.id = .running →
      Step g exec s (applyFinish g exec s n) ∧
        (∃ ev : TraceEvent, (applyFinish g exec s n).trace = s.trace ++ [ev] ∧
          ev.node = n.id) ∧
        (getStatus (applyFinish g exec s n) n.id = .succeeded ∨
          getStatus (applyFinish g exec s n) n.id = .failed)) ∧
    (∀ (g : Graph) (st : RunState), st.cancelled = true → st.failed = none →
      runStatus g st = .cancelled) ∧
    RunStatus.cancelled ≠ RunStatus.failed ∧
    (getStatus cancelMid "s1" = .running ∧ getStatus cancelMid "s2" = .pending ∧
      getStatus cancelFinal "s1" = .succeeded ∧
      (∃ ev ∈ cancelFinal.trace, ev.node = "s1" ∧ ev.newStatus = .succeeded) ∧
      getStatus cancelFinal "s2" ≠ .running ∧
      getStatus cancelFinal "s2" ≠ .succeeded ∧
      runStatus lineG cancelFinal = .cancelled) := by
  refine ⟨?_, ?_, ?_, ?_, by decide,
    by decide, by decide, by decide, by decide, by decide, by decide, by decide⟩
  · intro g exec s s' h hc j hj
    rcases step_status_cases h j with he | ⟨hp, _⟩ | ⟨_, _, hcf, _⟩ | ⟨hp, _⟩
    · rw [he, hj]; simp
    · rw [hj] at hp; simp at hp
    · rw [hc] at hcf; simp at hcf
    · rw [hj] at hp; simp at hp
  · intro g exec s s' h hc
    exact reaches_cancelled_mono h hc
  · intro g exec s n hn hrun
    obtain ⟨ns, ht, _⟩ := applyFinish_trace g exec s n
    exact ⟨Step.finish s n hn hrun, ⟨⟨s.nextSeq, n.id, ns⟩, ht, rfl⟩,
      getStatus_applyFinish_self g exec s n⟩
  · intro g st hc hf
    simp [runStatus, hc, hf]

/-- C7 witness: the sealing conjunct applied to the cancelled initial state
of `lineG`. -/
theorem claim7_cancellation_stops_dispatch_witness :
    runStatus lineG (applyCancel (initState (.num 1))) = .cancelled :=
  claim7_cancellation_stops_dispatch.2.2.2.1 lineG
    (applyCancel (initState (.num 1))) rfl rfl

/-- C8: `customModelProvider.getModel` is total whenever the merged registry
has a first provider with at least one model (always true for the static
registry): a missing argument yields the fallback model — the first model
of the first provider, which exists — an unregistered provider/model pair
yields the fallback model, and a registered pair yields that pair's model. -/
theorem claim8_getModel_total_with_fallback :
    ∀ compat : List (String × List (String × String)),
      (∃ p ms, (Models.allModels compat).head? = some (p, ms) ∧ ms ≠ []) →
      (Models.getModel (Models.allModels compat) none =
          Models.fallbackModel (Models.allModels compat) ∧
        (Models.fallbackModel (Models.allModels compat)).isSome = true) ∧
      (∀ p m, (lookupStr (Models.allModels compat) p).bind
          (fun ms => lookupStr ms m) = none →
        Models.getModel (Models.allModels compat) (some ⟨p, m⟩) =
          Models.fallbackModel (Models.allModels compat)) ∧
      (∀ p m ms v, lookupStr (Models.allModels compat) p = some ms →
        lookupStr ms m = some v →
        Models.getModel (Models.allModels compat) (some ⟨p, m⟩) = some v) := by
  intro compat hfirst
  refine ⟨⟨rfl, ?_⟩, ?_, ?_⟩
  · obtain ⟨p, ms, hh, hne⟩ := hfirst
    rw [Models.fallbackModel, hh]
    cases ms with
    | nil => exact absurd rfl hne
    | cons x t => simp
  · intro p m h
    simp [Models.getModel, h]
  · intro p m ms v h1 h2
    simp [Models.getModel, h1, h2]

/-- C8 witness: the fallback conjunct applied to the empty compatible-model
set, where the registry is exactly the static one. -/
theorem claim8_getModel_total_with_fallback_witness :
    Models.getModel (Models.allModels []) none =
        Models.fallbackModel (Models.allModels []) ∧
      (Models.fallbackModel (Models.allModels [])).isSome = true :=
  (claim8_getModel_total_with_fallback [] ⟨"openai", _, rfl, by decide⟩).1

/-- C9: `listStarredEmails` returns `[]` when the list response has no
`messages` field; each returned summary takes its subject and sender
through the header-defaulting rule, which yields "No subject" and
"Unknown sender" when the corresponding header is absent; and every listed
message yields exactly its summary in the result. -/
theorem claim9_listStarred_defaults :
    (∀ get, Gmail.listStarredEmails ⟨none⟩ get = []) ∧
    (∀ hs : List Gmail.GmailHeader, (∀ h ∈ hs, h.name ≠ "Subject") →
      Gmail.headerOr hs "Subject" "No subject" = "No subject") ∧
    (∀ hs : List Gmail.GmailHeader, (∀ h ∈ hs, h.name ≠ "From") →
      Gmail.headerOr hs "From" "Unknown sender" = "Unknown sender") ∧
    (∀ get (m : Gmail.GmailMessage),
      (Gmail.summarize get m).subject =
          Gmail.headerOr (get m.id).headers "Subject" "No subject" ∧
        (Gmail.summarize get m).«from» =
          Gmail.headerOr (get m.id).headers "From" "Unknown sender") ∧
    (∀ get msgs (m : Gmail.GmailMessage), m ∈ msgs →
      Gmail.summarize get m ∈ Gmail.listStarredEmails ⟨some msgs⟩ get) := by
  refine ⟨fun _ => rfl, ?_, ?_, fun _ _ => ⟨rfl, rfl⟩, ?_⟩
  · intro hs hn
    have hfind : hs.find? (fun h => h.name = "Subject") = none :=
      List.find?_eq_none.mpr (fun x hx => by simp [hn x hx])
    simp [Gmail.headerOr, hfind]
  · intro hs hn
    have hfind : hs.find? (fun h => h.name = "From") = none :=
      List.find?_eq_none.mpr (fun x hx => by simp [hn x hx])
    simp [Gmail.headerOr, hfind]
  · intro get msgs m hm
    exact List.mem_map_of_mem (Gmail.summarize get) hm

/-- C9 witness: the subject-defaulting conjunct applied to an empty header
list. -/
theorem claim9_listStarred_defaults_witness :
    Gmail.headerOr [] "Subject" "No subject" = "No subject" :=
  claim9_listStarred_defaults.2.1 [] (fun h hh => absurd hh (List.not_mem_nil h))

/-- C10: when the lowercased last user message contains "email" or
"starred", `handleChat` takes the email-tool branch — returning the fixed
assistant apology if `listStarredEmails` throws, and otherwise a completion
over the email system prompt and the last user message; every other payload
is forwarded to the completion capability as the optional system prompt
followed by the user messages, unchanged. -/
theorem claim10_handleChat_email_branch :
    (∀ (complete : String → List Chat.ChatMsg → Chat.Reply)
        (listStarred : String → Except String (List Gmail.EmailSummary))
        (p : Chat.ChatPayload) (m : Chat.ChatMsg),
      p.messages.getLast? = some m →
      (strContains (strToLower m.content) "email" ||
        strContains (strToLower m.content) "starred") = true →
      (∀ msg, listStarred (Chat.extractKeyword (strToLower m.content)) = .error msg →
        Chat.handleChat complete listStarred p = Chat.apologyReply) ∧
      (∀ emails, listStarred (Chat.extractKeyword (strToLower m.content)) = .ok emails →
        Chat.handleChat complete listStarred p =
          complete (p.model_id.getD "gpt-4")
            [⟨"system", Chat.emailSystemPrompt (Chat.extractKeyword (strToLower m.content))
                (Chat.summaryBlock emails)⟩,
             ⟨"user", (strToLower m.content)⟩])) ∧
    (∀ (complete : String → List Chat.ChatMsg → Chat.Reply)
        (listStarred : String → Except String (List Gmail.EmailSummary))
        (p : Chat.ChatPayload),
      p.messages.getLast? = none →
      Chat.handleChat complete listStarred p =
        complete (p.model_id.getD "gpt-4") (Chat.systemMsgs p ++ p.messages)) ∧
    (∀ (complete : String → List Chat.ChatMsg → Chat.Reply)
        (listStarred : String → Except String (List Gmail.EmailSummary))
        (p : Chat.ChatPayload) (m : Chat.ChatMsg),
      p.messages.getLast? = some m →
      (strContains (strToLower m.content) "email" ||
        strContains (strToLower m.content) "starred") = false →
      Chat.handleChat complete listStarred p =
        complete (p.model_id.getD "gpt-4") (Chat.systemMsgs p ++ p.messages)) ∧
    Chat.apologyReply.role = "assistant" := by
  refine ⟨?_, ?_, ?_, rfl⟩
  · intro complete listStarred p m hlast hcont
    constructor
    · intro msg herr
      simp [Chat.handleChat, hlast, hcont, herr]
    · intro emails hok
      simp [Chat.handleChat, hlast, hcont, hok]
  · intro complete listStarred p hlast
    simp [Chat.handleChat, hlast]
  · intro complete listStarred p m hlast hcont
    simp [Chat.handleChat, hlast, hcont]

/-- C10 witness: a payload whose last user message is "email" with a
throwing `listStarredEmails` capability resolves to the fixed apology. -/
theorem claim10_handleChat_email_branch_witness :
    Chat.handleChat (fun _ _ => ⟨"assistant", "ok"⟩) (fun _ => .error "x")
      ⟨none, [⟨"user", "email"⟩], none⟩ = Chat.apologyReply :=
  (claim10_handleChat_email_branch.1 (fun _ _ => ⟨"assistant", "ok"⟩)
    (fun _ => .error "x") ⟨none, [⟨"user", "email"⟩], none⟩ ⟨"user", "email"⟩
    rfl (by decide)).1 "x" rfl
